import Mathlib

/-!
Verification of the Nova Sonic S2S WebSocket relay
(`01-tutorials/01-AgentCore-runtime/06-bi-directional-streaming/sonic/websocket/server.py`).

The development shallowly embeds the parts of `server.py` that the verified
properties are about:

* a model of Python JSON values (`Json`, `JsonArr`, `JsonObj`) together with a
  byte-exact model of `json.dumps` with its default arguments
  (`ensure_ascii=True`, separators `", "` and `": "`), since `split_large_event`
  measures events by `len(json.dumps(event).encode("utf-8"))`;
* `split_large_event` itself (server.py lines 426-498), including the Python
  error behaviour of `range(0, n, step)` for `step <= 0` modelled through
  `Except`;
* the per-connection session lifecycle of `websocket_endpoint`
  (server.py lines 266-424), modelled as a state machine that records the
  bridge/task operations the handler performs, in order;
* one iteration of the credential refresh loop
  (`refresh_credentials_from_imds`, server.py lines 120-169).

Python dictionaries are modelled as insertion-ordered association lists
(`JsonObj`); Python dict assignment `d[k] = v` keeps the position of an
existing key and appends otherwise, which `setKey` mirrors.
-/

mutual

/-- Python JSON value.  Dictionaries are insertion ordered, exactly as in
CPython, so an object is a sequence of key/value pairs.  Mutual inductives are
used (rather than a nested `List`) so that all functions below are structural
and compute inside the kernel. -/
inductive Json where
  | null : Json
  | bool : Bool → Json
  | num : Int → Json
  | str : String → Json
  | arr : JsonArr → Json
  | obj : JsonObj → Json

/-- A JSON array: a list of JSON values. -/
inductive JsonArr where
  | nil : JsonArr
  | cons : Json → JsonArr → JsonArr

/-- A JSON object: an insertion-ordered association list. -/
inductive JsonObj where
  | nil : JsonObj
  | cons : String → Json → JsonObj → JsonObj

end

/-- `len` of a JSON array. -/
def JsonArr.length : JsonArr → Nat
  | .nil => 0
  | .cons _ rest => rest.length + 1

/-- Number of keys of a JSON object (`len` of a Python dict). -/
def JsonObj.length : JsonObj → Nat
  | .nil => 0
  | .cons _ _ rest => rest.length + 1

/-- `xs[i:]` on a JSON array. -/
def JsonArr.drop : Nat → JsonArr → JsonArr
  | 0, xs => xs
  | _, .nil => .nil
  | n + 1, .cons _ rest => JsonArr.drop n rest

/-- `xs[:k]` on a JSON array. -/
def JsonArr.take : Nat → JsonArr → JsonArr
  | 0, _ => .nil
  | _, .nil => .nil
  | n + 1, .cons x rest => .cons x (JsonArr.take n rest)

/-- List append on JSON arrays. -/
def JsonArr.append : JsonArr → JsonArr → JsonArr
  | .nil, ys => ys
  | .cons x rest, ys => .cons x (rest.append ys)

/-- `s in xs` for a string `s` and a Python list `xs`: membership by equality;
only string elements can compare equal to a string. -/
def JsonArr.containsStr (s : String) : JsonArr → Bool
  | .nil => false
  | .cons (.str t) rest => t == s || rest.containsStr s
  | .cons _ rest => rest.containsStr s

/-- Python dict lookup `o[key]` (first, and only, binding of `key`). -/
def getKey : JsonObj → String → Option Json
  | .nil, _ => none
  | .cons k v rest, key => if k == key then some v else getKey rest key

/-- Python `key in o`. -/
def hasKey (o : JsonObj) (key : String) : Bool :=
  (getKey o key).isSome

/-- Python dict assignment `o[key] = v`: replaces in place if the key exists
(keeping its position), appends otherwise. -/
def setKey : JsonObj → String → Json → JsonObj
  | .nil, key, v => .cons key v .nil
  | .cons k v' rest, key, v =>
    if k == key then .cons k v rest else .cons k v' (setKey rest key v)

/-- Number of UTF-8 bytes of one character (`len(c.encode("utf-8"))`). -/
def charBytes (c : Char) : Nat :=
  if c.toNat < 0x80 then 1
  else if c.toNat < 0x800 then 2
  else if c.toNat < 0x10000 then 3
  else 4

/-- `len(s.encode("utf-8"))`. -/
def utf8Len (s : String) : Nat :=
  (s.data.map charBytes).sum

/-- One hexadecimal digit, lower case, as CPython's `json` module prints it. -/
def hexDigit (n : Nat) : Char :=
  if n < 10 then Char.ofNat (48 + n) else Char.ofNat (87 + n % 16)

/-- Four-digit lower-case hexadecimal rendering used in `\uXXXX` escapes. -/
def toHex4 (n : Nat) : String :=
  String.mk [hexDigit (n / 4096 % 16), hexDigit (n / 256 % 16),
             hexDigit (n / 16 % 16), hexDigit (n % 16)]

/-- How CPython's `json.dumps` (with its default `ensure_ascii=True`) renders
one character inside a string literal: the two-character escapes for
backslash, quote and the usual control characters, `\uXXXX` for other
control characters and for everything outside printable ASCII, with a
surrogate pair for characters beyond the basic multilingual plane. -/
def pyEscapeChar (c : Char) : String :=
  if c = '\\' then "\\\\"
  else if c = '"' then "\\\""
  else if c = '\x08' then "\\b"
  else if c = '\x0c' then "\\f"
  else if c = '\n' then "\\n"
  else if c = '\r' then "\\r"
  else if c = '\t' then "\\t"
  else if c.toNat < 0x20 then "\\u" ++ toHex4 c.toNat
  else if c.toNat ≤ 0x7e then String.mk [c]
  else if c.toNat < 0x10000 then "\\u" ++ toHex4 c.toNat
  else
    "\\u" ++ toHex4 (0xd800 + (c.toNat - 0x10000) / 0x400) ++
    "\\u" ++ toHex4 (0xdc00 + (c.toNat - 0x10000) % 0x400)

/-- `json.dumps` of a Python string (including the surrounding quotes). -/
def pyJsonStr (s : String) : String :=
  "\"" ++ String.join (s.data.map pyEscapeChar) ++ "\""

mutual

/-- `json.dumps(v)` with default arguments: item separator `", "`,
key separator `": "`, `ensure_ascii=True`. -/
def dumps : Json → String
  | .null => "null"
  | .bool true => "true"
  | .bool false => "false"
  | .num n => toString n
  | .str s => pyJsonStr s
  | .arr xs => "[" ++ dumpsArr xs ++ "]"
  | .obj o => "\x7b" ++ dumpsObj o ++ "\x7d"

/-- The comma-separated items of a serialized JSON array. -/
def dumpsArr : JsonArr → String
  | .nil => ""
  | .cons x .nil => dumps x
  | .cons x (.cons y rest) => dumps x ++ ", " ++ dumpsArr (.cons y rest)

/-- The comma-separated `"key": value` entries of a serialized JSON object. -/
def dumpsObj : JsonObj → String
  | .nil => ""
  | .cons k v .nil => pyJsonStr k ++ ": " ++ dumps v
  | .cons k v (.cons k' v' rest) =>
    pyJsonStr k ++ ": " ++ dumps v ++ ", " ++ dumpsObj (.cons k' v' rest)

end

/-- `len(json.dumps(response).encode("utf-8"))` for a top-level (dict) event. -/
def eventSize (o : JsonObj) : Nat :=
  utf8Len (dumps (.obj o))

example : dumps (.obj (.cons "event" (.obj (.cons "textOutput"
    (.obj (.cons "content" (.str "") .nil)) .nil)) .nil)) =
    "\x7b\"event\": \x7b\"textOutput\": \x7b\"content\": \"\"\x7d\x7d\x7d" := by
  rfl

example : eventSize (.cons "event" (.obj (.cons "textOutput"
    (.obj (.cons "content" (.str "") .nil)) .nil)) .nil) = 42 := by decide

/-- Warnings that `split_large_event` logs via `logger.warning` while
producing its result (server.py lines 448 and 488). -/
inductive Warning where
  | noContentField : Warning
  | paddingAdded : Warning
deriving DecidableEq

/-- Naive substring test, modelling Python's `needle in haystack` on strings
(used when `event_data` happens to be a string at server.py line 447). -/
def containsSub (needle : List Char) : List Char → Bool
  | [] => needle.isEmpty
  | c :: rest => (needle.isPrefixOf (c :: rest)) || containsSub needle rest

/-- Python `len(v)`: defined for strings (code points), lists and dicts,
a `TypeError` otherwise. -/
def pyLen : Json → Except String Nat
  | .str s => .ok s.length
  | .arr xs => .ok xs.length
  | .obj o => .ok o.length
  | _ => .error "TypeError: object has no len()"

/-- Python slice `v[i : i + k]`: defined for strings and lists,
a `TypeError` otherwise (e.g. a dict cannot be indexed by a slice). -/
def pySlice : Json → Nat → Nat → Except String Json
  | .str s, i, k => .ok (.str (String.mk ((s.data.drop i).take k)))
  | .arr xs, i, k => .ok (.arr (JsonArr.take k (JsonArr.drop i xs)))
  | _, _, _ => .error "TypeError: unhashable type: slice"

/-- Server.py lines 483-488: for `audioOutput` chunks, check
`len(chunk_content) % 4` and append `"=" * (4 - remainder)` when it is not
zero (logging a warning).  `list += str` extends a Python list with the
one-character strings of the string, which the `.arr` case mirrors. -/
def padChunk : Json → Except String (Json × Option Warning)
  | .str s =>
    let r := s.length % 4
    if r = 0 then .ok (.str s, none)
    else .ok (.str (s ++ String.mk (List.replicate (4 - r) '=')), some .paddingAdded)
  | .arr xs =>
    let r := xs.length % 4
    if r = 0 then .ok (.arr xs, none)
    else
      .ok (.arr (xs.append (JsonArr.take (4 - r)
        (JsonArr.cons (.str "=") (JsonArr.cons (.str "=") (JsonArr.cons (.str "=") .nil))))),
        some .paddingAdded)
  | _ => .error "TypeError: object is not iterable"

/-- Server.py lines 491-493 (and, with `piece = .str ""`, lines 455-457):
`chunk_event = response.copy()`, then
`chunk_event["event"] = \x7bevent_type: event_data.copy()\x7d`, then
`chunk_event["event"][event_type]["content"] = piece`.  The copies are
shallow, and the rebuilt `"event"` dict holds exactly the one key
`event_type`. -/
def mkChunk (response : JsonObj) (event_type : String) (event_data : JsonObj)
    (piece : Json) : JsonObj :=
  setKey response "event" (.obj (.cons event_type (.obj (setKey event_data "content" piece)) .nil))

/-- Server.py lines 460-472: `max_content_size = max_size - overhead - 100`,
rounded down to a multiple of 4 (Python floor division) when the event type
is `audioOutput`. -/
def chunkBudget (max_size : Int) (overhead : Nat) (event_type : String) : Int :=
  let m := max_size - (overhead : Int) - 100
  if event_type == "audioOutput" then (Int.fdiv m 4) * 4 else m

/-- The body of the splitting loop (server.py lines 476-495) for one value
of the loop variable `i = j * max_content_size`: slice the content, pad
`audioOutput` chunks, and build the chunk event. -/
def splitChunkAt (response : JsonObj) (event_type : String) (d : JsonObj)
    (content : Json) (k : Nat) (j : Nat) : Except String (JsonObj × Option Warning) :=
  match pySlice content (j * k) k with
  | .error e => .error e
  | .ok piece =>
    match (if event_type == "audioOutput" then padChunk piece else .ok (piece, none)) with
    | .error e => .error e
    | .ok (piece2, w) => .ok (mkChunk response event_type d piece2, w)

/-- `split_large_event(response, max_size)` (server.py lines 426-498).

The returned list of events is paired with the list of warnings the function
logs; Python exceptions (the `ValueError` that `range(0, n, 0)` raises when
`max_size - overhead - 100` is exactly zero, and the `TypeError`s for
non-subscriptable payloads) are modelled with `Except.error`.
`for i in range(0, n, k)` with `k > 0` performs `(n + k - 1) / k` iterations
with `i = j * k`, which the `List.range` below spells out; with a negative
`k` the range is empty, and the loop body never runs. -/
def split_large_event (response : JsonObj) (max_size : Int) :
    Except String (List JsonObj × List Warning) :=
  if (eventSize response : Int) ≤ max_size then .ok ([response], [])
  else
    match getKey response "event" with
    | none => .ok ([response], [])
    | some (.obj .nil) => .error "IndexError: list index out of range"
    | some (.obj (.cons event_type v0 fs0)) =>
      match (match getKey (.cons event_type v0 fs0) event_type with
             | some v => v
             | none => .null : Json) with
      | .obj d =>
        if hasKey d "content" = false then .ok ([response], [.noContentField])
        else
          match (match getKey d "content" with
                 | some v => v
                 | none => .null : Json) with
          | content =>
            let overhead : Nat := eventSize (mkChunk response event_type d (.str ""))
            let max_content_size : Int := chunkBudget max_size overhead event_type
            match pyLen content with
            | .error e => .error e
            | .ok n =>
              if max_content_size = 0 then
                .error "ValueError: range() arg 3 must not be zero"
              else if max_content_size < 0 then .ok ([], [])
              else
                let k := max_content_size.toNat
                match (List.range ((n + k - 1) / k)).mapM
                    (splitChunkAt response event_type d content k) with
                | .error e => .error e
                | .ok results => .ok (results.map Prod.fst, results.filterMap Prod.snd)
      | .str s =>
        if containsSub "content".data s.data then
          .error "TypeError: string indices must be integers"
        else .ok ([response], [.noContentField])
      | .arr xs =>
        if xs.containsStr "content" then
          .error "TypeError: list indices must be integers"
        else .ok ([response], [.noContentField])
      | _ => .error "TypeError: argument of type is not iterable"
    | some _ => .error "AttributeError: object has no attribute keys"

/-- The `content` string carried by an event envelope: the payload of the
first event kind, read the way `forward_responses`' client reassembles chunks
(empty when absent).  Used to state properties of the chunks produced by
`split_large_event`. -/
def chunkContent (o : JsonObj) : String :=
  match getKey o "event" with
  | some (.obj (.cons _ (.obj d) _)) =>
    match getKey d "content" with
    | some (.str s) => s
    | _ => ""
  | _ => ""

/-- A `\x7b"event": \x7bkind: \x7b"content": content\x7d\x7d\x7d` envelope, the shape of the
backend output events `forward_responses` splits. -/
def contentEvent (kind : String) (content : String) : JsonObj :=
  .cons "event" (.obj (.cons kind (.obj (.cons "content" (.str content) .nil)) .nil)) .nil

/-!
## The per-connection session lifecycle (`websocket_endpoint`, server.py lines 266-424)

The WebSocket receive loop is modelled as a state machine over `ConnState`.
One loop iteration (`handleMessage`) consumes one (already JSON-parsed)
client frame and returns the successor state together with the ordered list
of operations the handler performed: calls into the stream manager
(`S2sSessionManager`), task management, and frames sent back to the client.

`S2sSessionManager` lives in `s2s_session_manager.py`, which is not part of
the sources; its observable interface is modelled from the spec:
`initialize_stream` opens the backend stream and `is_active` becomes true
exactly when it succeeds (spec section 4.3); whether it succeeds for a given
`sessionStart` is an input (`initOk`) of the model.  Everything else below is
a direct translation of `websocket_endpoint`.

In `asyncio`, code between two `await` points of one task cannot interleave
with another task of the same event loop, so one iteration of the receive
loop is modelled as one atomic step.  The receive loop never closes the
WebSocket connection while handling an event: an exception raised while
processing one message is caught at server.py line 382, reported with a
`\x7b"type": "error"\x7d` frame, and the loop continues with the next message,
which the model mirrors by having `handleMessage` be a total function into
a successor state (no terminal states).
-/

/-- The stream manager object of a session, as visible to the handler.
`is_active` is the manager's `is_active` attribute (modelled from the spec:
set by a successful `initialize_stream`); `mgr_id` identifies the underlying
backend bridge so that operations on distinct managers can be told apart;
`prompt_name` / `audio_content_name` are the fields updated at server.py
lines 357-360. -/
structure SessionMgr where
  mgr_id : Nat
  is_active : Bool
  prompt_name : Option Json
  audio_content_name : Option Json

/-- Whether an `asyncio` task has completed (`task.done()`). -/
inductive TaskState where
  | running : TaskState
  | finished : TaskState
deriving DecidableEq

/-- The local state of one `websocket_endpoint` invocation: the
`stream_manager` and `forward_task` variables (server.py lines 276-277),
plus a counter supplying fresh bridge identities. -/
structure ConnState where
  stream_manager : Option SessionMgr
  forward_task : Option TaskState
  next_id : Nat

/-- The observable operations one loop iteration can perform, in order. -/
inductive Op where
  | closeBridge : Nat → Op
  | cancelForwardTask : Op
  | awaitForwardTask : Op
  | createBridge : Nat → Op
  | initStream : Nat → Bool → Op
  | spawnForwardTask : Op
  | sendRawEvent : Nat → JsonObj → Op
  | addAudioChunk : Nat → Json → Json → Json → Op
  | sendClientError : String → Op
  | logWarning : Op

/-- One client frame, after `json.loads` (and the one-level `body` unwrap of
server.py lines 290-291): either a successfully parsed JSON object or a
frame whose parsing raised `json.JSONDecodeError`. -/
inductive IncomingEvent where
  | parsed : JsonObj → IncomingEvent
  | malformed : IncomingEvent

/-- `data["event"][kind][field]`, as read by the `promptStart` and
`audioInput` branches (server.py lines 358, 364-366); `none` models the
`KeyError`/`TypeError` a missing key or non-dict payload raises. -/
def getPath (data : JsonObj) (kind field : String) : Option Json :=
  match getKey data "event" with
  | some (.obj fs) =>
    match getKey fs kind with
    | some (.obj p) => getKey p field
    | _ => none
  | _ => none

/-- Server.py lines 300-334: the `sessionStart` branch.  Tear down any prior
session (close its bridge; cancel and await its forwarding task), create the
new `S2sSessionManager`, then `initialize_stream()`.  On success, spawn the
forwarding task and forward the `sessionStart` event to the backend.  On
failure the raised exception skips the rest of the branch and is caught at
line 382, which sends an error frame to the client; note that
`stream_manager` was already assigned at line 315, and that the old
`forward_task` variable (now holding a finished task) is not cleared. -/
def handleSessionStart (initOk : Bool) (data : JsonObj) (st : ConnState) :
    ConnState × List Op :=
  let cleanupOps := match st.stream_manager with
    | some m => [Op.closeBridge m.mgr_id]
    | none => []
  let taskCleanup : Option TaskState × List Op := match st.forward_task with
    | some .running => (some .finished, [Op.cancelForwardTask, Op.awaitForwardTask])
    | t => (t, [])
  let newId := st.next_id
  let ops0 := cleanupOps ++ taskCleanup.2 ++ [Op.createBridge newId, Op.initStream newId initOk]
  if initOk then
    ({ stream_manager := some ⟨newId, true, none, none⟩,
       forward_task := some .running,
       next_id := newId + 1 },
     ops0 ++ [Op.spawnForwardTask, Op.sendRawEvent newId data])
  else
    ({ stream_manager := some ⟨newId, false, none, none⟩,
       forward_task := taskCleanup.1,
       next_id := newId + 1 },
     ops0 ++ [Op.sendClientError "ConnectionError"])

/-- Server.py lines 337-352: the `sessionEnd` branch.  Close the bridge and
clear `stream_manager` if one exists; cancel, await and clear the forwarding
task if one is still running (a finished task is left in place, exactly as
in the source, where `forward_task = None` only happens inside the
`not forward_task.done()` branch). -/
def handleSessionEnd (st : ConnState) : ConnState × List Op :=
  let bridge : Option SessionMgr × List Op := match st.stream_manager with
    | some m => (none, [Op.closeBridge m.mgr_id])
    | none => (none, [])
  let task : Option TaskState × List Op := match st.forward_task with
    | some .running => (none, [Op.cancelForwardTask, Op.awaitForwardTask])
    | t => (t, [])
  ({ stream_manager := bridge.1, forward_task := task.1, next_id := st.next_id },
   bridge.2 ++ task.2)

/-- Server.py lines 355-372: processing of a data event while the stream
manager exists and is active.  `promptStart` and audio-typed `contentStart`
record session fields; `audioInput` goes to `add_audio_chunk`; everything
else goes to `send_raw_event`.  A `KeyError` raised by a missing field skips
the rest of the iteration and becomes an error frame (line 382). -/
def handleActiveEvent (event_type : String) (data : JsonObj) (m : SessionMgr)
    (st : ConnState) : ConnState × List Op :=
  let upd : Except String SessionMgr :=
    if event_type == "promptStart" then
      match getPath data "promptStart" "promptName" with
      | some v => .ok { m with prompt_name := some v }
      | none => .error "KeyError: promptName"
    else if event_type == "contentStart" then
      match getKey data "event" with
      | some (.obj fs) =>
        match getKey fs "contentStart" with
        | some (.obj p) =>
          match getKey p "type" with
          | some (.str "AUDIO") =>
            match getKey p "contentName" with
            | some v => .ok { m with audio_content_name := some v }
            | none => .error "KeyError: contentName"
          | _ => .ok m
        | _ => .error "AttributeError: object has no attribute get"
      | _ => .error "KeyError: event"
    else .ok m
  match upd with
  | .error e => (st, [Op.sendClientError e])
  | .ok m1 =>
    if event_type == "audioInput" then
      match getPath data "audioInput" "promptName", getPath data "audioInput" "contentName",
            getPath data "audioInput" "content" with
      | some pn, some cn, some c =>
        ({ st with stream_manager := some m1 }, [Op.addAudioChunk m1.mgr_id pn cn c])
      | _, _, _ => (st, [Op.sendClientError "KeyError: audioInput"])
    else
      ({ st with stream_manager := some m1 }, [Op.sendRawEvent m1.mgr_id data])

/-- One iteration of the receive loop (server.py lines 283-387): parse
failures produce an error frame; a frame without an `event` key is logged
and skipped; otherwise the first key of `data["event"]` selects the branch.
A data event with no active stream manager is logged and dropped
(lines 373-374). -/
def handleMessage (msg : IncomingEvent) (initOk : Bool) (st : ConnState) :
    ConnState × List Op :=
  match msg with
  | .malformed => (st, [Op.sendClientError "Invalid JSON format"])
  | .parsed data =>
    match getKey data "event" with
    | none => (st, [Op.logWarning])
    | some (.obj (.cons event_type _ _)) =>
      if event_type == "sessionStart" then handleSessionStart initOk data st
      else if event_type == "sessionEnd" then handleSessionEnd st
      else
        match st.stream_manager with
        | some m =>
          if m.is_active then handleActiveEvent event_type data m st
          else (st, [Op.logWarning])
        | none => (st, [Op.logWarning])
    | some (.obj .nil) => (st, [Op.sendClientError "IndexError: list index out of range"])
    | some _ => (st, [Op.sendClientError "AttributeError: object has no attribute keys"])

/-- The receive loop over a sequence of frames, each paired with whether the
backend would accept `initialize_stream` at that point; returns the final
state and the concatenated operation trace. -/
def runConn : List (IncomingEvent × Bool) → ConnState → ConnState × List Op
  | [], st => (st, [])
  | (msg, ok) :: rest, st =>
    let step := handleMessage msg ok st
    let tail := runConn rest step.1
    (tail.1, step.2 ++ tail.2)

/-- The state of a fresh connection after `websocket.accept()`
(server.py lines 276-277). -/
def freshConn : ConnState :=
  { stream_manager := none, forward_task := none, next_id := 0 }

/-!
## The credential refresh loop (`refresh_credentials_from_imds`, lines 120-169)

One iteration of the `while True` loop is modelled as a pure step on the
cached credential triple (the three `AWS_*` environment variables).  The
outcome of `get_credentials_from_imds()` — a network call — is an input of
the step.  Time is modelled in whole seconds: `secondsUntilExpiry` stands
for `(expiration - now).total_seconds()`, and `none` models an
`Expiration` field that `datetime.fromisoformat` fails to parse
(server.py lines 152-154).
-/

/-- The cached credential triple: the `AWS_ACCESS_KEY_ID`,
`AWS_SECRET_ACCESS_KEY` and `AWS_SESSION_TOKEN` environment variables
(`none` = unset). -/
structure EnvCreds where
  accessKeyId : Option String
  secretAccessKey : Option String
  sessionToken : Option String
deriving DecidableEq

/-- A successful IMDS credential bundle, as used by the refresh loop. -/
structure ImdsCreds where
  accessKeyId : String
  secretAccessKey : String
  token : String
  secondsUntilExpiry : Option Int
deriving DecidableEq

/-- The outcome of one `get_credentials_from_imds()` call. -/
inductive FetchResult where
  | success : ImdsCreds → FetchResult
  | failure : String → FetchResult

/-- One iteration of the refresh loop (server.py lines 128-169): on success,
store all three credentials (lines 136-138 — straight-line code with no
`await` between the three assignments) and sleep
`min(max(time_until_expiration - 300, 60), 3600)` seconds (line 150), or
3600 when the expiration cannot be parsed (line 154); on failure, leave the
cached credentials untouched and sleep 300 seconds (line 161).  Returns the
new cache and the sleep duration. -/
def refreshStep (r : FetchResult) (env : EnvCreds) : EnvCreds × Int :=
  match r with
  | .success c =>
    (⟨some c.accessKeyId, some c.secretAccessKey, some c.token⟩,
     match c.secondsUntilExpiry with
     | some t => min (max (t - 300) 60) 3600
     | none => 3600)
  | .failure _ => (env, 300)

/-- The refresh loop run over a sequence of fetch outcomes. -/
def refreshRun : List FetchResult → EnvCreds → EnvCreds
  | [], env => env
  | r :: rest, env => refreshRun rest (refreshStep r env).1

/-!
## Derived size notions used in the statements and proofs
-/

/-- Serialized size of a JSON value. -/
def jsize (v : Json) : Nat :=
  utf8Len (dumps v)

/-- Serialized size of the entry list of a JSON object (without braces). -/
def osize (o : JsonObj) : Nat :=
  utf8Len (dumpsObj o)

/-- Serialized size contributed by the tail of a non-empty object:
`", "` plus the tail's entries, or nothing for an empty tail. -/
def osizeTail : JsonObj → Nat
  | .nil => 0
  | .cons k v rest => osize (.cons k v rest) + 2

/-- Total serialized length of a string's characters under JSON escaping:
the size of `json.dumps(s)` without the two surrounding quotes. -/
def escLen (s : String) : Nat :=
  (s.data.map (fun c => utf8Len (pyEscapeChar c))).sum

/-- The slice `content[j*k : j*k + k]` of the content string. -/
def pieceAt (s : String) (k j : Nat) : String :=
  String.mk ((s.data.drop (j * k)).take k)

/-- The padding step of the loop body as applied to a string piece: the
identity for non-audio events; for `audioOutput`, append `=` up to a
multiple of 4 when needed, flagging the warning. -/
def padFor (event_type : String) (p : String) : String × Option Warning :=
  if event_type == "audioOutput" then
    let r := p.length % 4
    if r = 0 then (p, none)
    else (p ++ String.mk (List.replicate (4 - r) '='), some .paddingAdded)
  else (p, none)

/-!
## Basic lemmas about sizes, keys and serialization
-/

theorem utf8Len_append (a b : String) : utf8Len (a ++ b) = utf8Len a + utf8Len b := by
  simp [utf8Len, String.data_append]

theorem utf8Len_foldl (l : List String) :
    ∀ acc : String, utf8Len (List.foldl (fun r s => r ++ s) acc l) =
      utf8Len acc + (l.map utf8Len).sum := by
  induction l with
  | nil => intro acc; simp
  | cons x xs ih => intro acc; simp [List.foldl_cons, ih, utf8Len_append]; ring

theorem utf8Len_join (l : List String) :
    utf8Len (String.join l) = (l.map utf8Len).sum := by
  have h := utf8Len_foldl l ""
  have h0 : utf8Len "" = 0 := by decide
  simp only [String.join] at *
  omega

theorem jsize_str (s : String) : jsize (.str s) = 2 + escLen s := by
  have h1 : utf8Len "\"" = 1 := by decide
  simp only [jsize, dumps, pyJsonStr, utf8Len_append, utf8Len_join, h1, escLen,
    List.map_map, Function.comp_def]
  omega

theorem jsize_obj (o : JsonObj) : jsize (.obj o) = 2 + osize o := by
  have h1 : utf8Len "\x7b" = 1 := by decide
  have h2 : utf8Len "\x7d" = 1 := by decide
  simp only [jsize, dumps, utf8Len_append, h1, h2, osize]
  omega

theorem osize_cons (k : String) (v : Json) (rest : JsonObj) :
    osize (.cons k v rest) = utf8Len (pyJsonStr k) + 2 + jsize v + osizeTail rest := by
  have hc : utf8Len ": " = 2 := by decide
  have hs : utf8Len ", " = 2 := by decide
  cases rest with
  | nil => simp only [osize, dumpsObj, utf8Len_append, hc, osizeTail, jsize]; omega
  | cons k' v' rest' =>
    simp only [osize, dumpsObj, utf8Len_append, hc, hs, osizeTail, jsize]
    omega

theorem osizeTail_setKey (o : JsonObj) (key : String) (v : Json) :
    osizeTail (setKey o key v) = osize (setKey o key v) + 2 := by
  cases o with
  | nil => simp [setKey, osizeTail]
  | cons k v' rest =>
    by_cases h : k == key
    · simp [setKey, h, osizeTail]
    · simp [setKey, h, osizeTail]

theorem getKey_setKey_self : ∀ (o : JsonObj) (key : String) (v : Json),
    getKey (setKey o key v) key = some v
  | .nil, key, v => by simp [setKey, getKey]
  | .cons k v' rest, key, v => by
    by_cases h : k == key
    · simp [setKey, h, getKey]
    · simp [setKey, h, getKey, getKey_setKey_self rest key v]

theorem hasKey_cons (k : String) (v : Json) (rest : JsonObj) (key : String) :
    hasKey (.cons k v rest) key = (k == key || hasKey rest key) := by
  by_cases h : k == key <;> simp [hasKey, getKey, h]

theorem osize_setKey_swap : ∀ (o : JsonObj) (key : String) (v₁ v₂ : Json),
    hasKey o key = true →
    osize (setKey o key v₁) + jsize v₂ = osize (setKey o key v₂) + jsize v₁
  | .nil, key, v₁, v₂, h => by simp [hasKey, getKey] at h
  | .cons k v rest, key, v₁, v₂, h => by
    by_cases hk : k == key
    · simp only [setKey, hk, if_true]
      rw [osize_cons, osize_cons]
      omega
    · have hrest : hasKey rest key = true := by
        rw [hasKey_cons] at h
        simpa [hk] using h
      have ih := osize_setKey_swap rest key v₁ v₂ hrest
      simp only [setKey, hk, Bool.false_eq_true, if_false]
      rw [osize_cons, osize_cons, osizeTail_setKey, osizeTail_setKey]
      omega

/-- The serialized size of a chunk event equals the serialized size of the
empty-content template plus the escaped length of the chunk's content: the
two events differ exactly in the one string stored under `content`. -/
theorem eventSize_mkChunk (r : JsonObj) (t : String) (d : JsonObj) (x : String)
    (hr : hasKey r "event" = true) (hd : hasKey d "content" = true) :
    eventSize (mkChunk r t d (.str x)) = eventSize (mkChunk r t d (.str "")) + escLen x := by
  have inner := osize_setKey_swap d "content" (.str x) (.str "") hd
  have outer := osize_setKey_swap r "event"
    (.obj (.cons t (.obj (setKey d "content" (.str x))) .nil))
    (.obj (.cons t (.obj (setKey d "content" (.str ""))) .nil)) hr
  have hjx : jsize (.str x) = 2 + escLen x := jsize_str x
  have hj0 : jsize (.str "") = 2 + escLen "" := jsize_str ""
  have hesc0 : escLen "" = 0 := by decide
  have e1 : jsize (.obj (.cons t (.obj (setKey d "content" (.str x))) .nil)) =
      2 + (utf8Len (pyJsonStr t) + 2 + (2 + osize (setKey d "content" (.str x))) + 0) := by
    rw [jsize_obj, osize_cons, jsize_obj]; rfl
  have e2 : jsize (.obj (.cons t (.obj (setKey d "content" (.str ""))) .nil)) =
      2 + (utf8Len (pyJsonStr t) + 2 + (2 + osize (setKey d "content" (.str ""))) + 0) := by
    rw [jsize_obj, osize_cons, jsize_obj]; rfl
  have e3 : eventSize (mkChunk r t d (.str x)) =
      2 + osize (setKey r "event" (.obj (.cons t (.obj (setKey d "content" (.str x))) .nil))) := by
    show jsize (.obj (setKey r "event" _)) = _
    rw [jsize_obj]
  have e4 : eventSize (mkChunk r t d (.str "")) =
      2 + osize (setKey r "event" (.obj (.cons t (.obj (setKey d "content" (.str ""))) .nil))) := by
    show jsize (.obj (setKey r "event" _)) = _
    rw [jsize_obj]
  omega

theorem mapM_ok {α β : Type} (l : List α) (f : α → Except String β) (g : α → β)
    (h : ∀ a ∈ l, f a = .ok (g a)) : l.mapM f = .ok (l.map g) := by
  induction l with
  | nil => rw [List.mapM_nil]; rfl
  | cons x xs ih =>
    rw [List.mapM_cons, h x (by simp), ih (fun a ha => h a (by simp [ha]))]
    rfl

theorem flatten_range_take (l : List Char) (k : Nat) :
    ∀ m, ((List.range m).map (fun j => (l.drop (j * k)).take k)).flatten = l.take (m * k) := by
  intro m
  induction m with
  | zero => simp
  | succ m ih =>
    rw [List.range_succ, List.map_append, List.flatten_append, ih]
    simp only [List.map_cons, List.map_nil, List.flatten_cons, List.flatten_nil,
      List.append_nil]
    rw [Nat.succ_mul, List.take_add]

theorem ceil_div_mul_ge (n k : Nat) (hk : 0 < k) : n ≤ ((n + k - 1) / k) * k := by
  have h := Nat.div_add_mod (n + k - 1) k
  have hmod : (n + k - 1) % k < k := Nat.mod_lt _ hk
  have hq : k * ((n + k - 1) / k) = n + k - 1 - (n + k - 1) % k := by omega
  calc n ≤ n + k - 1 - (n + k - 1) % k := by omega
    _ = k * ((n + k - 1) / k) := hq.symm
    _ = ((n + k - 1) / k) * k := Nat.mul_comm _ _

theorem ceil_div_pos (n k : Nat) (hk : 0 < k) (hn : 0 < n) : 0 < (n + k - 1) / k :=
  Nat.div_pos (by omega) hk

theorem pieceAt_length (s : String) (k j : Nat) :
    (pieceAt s k j).length = min k (s.length - j * k) := by
  show (List.take k (List.drop (j * k) s.data)).length = _
  rw [List.length_take, List.length_drop]
  rfl

theorem padChunk_str (p : String) :
    padChunk (.str p) =
      .ok (.str (padFor "audioOutput" p).1, (padFor "audioOutput" p).2) := by
  by_cases hr : p.length % 4 = 0 <;>
    simp [padChunk, padFor, hr]

theorem padFor_other (t : String) (p : String) (ht : (t == "audioOutput") = false) :
    padFor t p = (p, none) := by
  simp [padFor, ht]

theorem padFor_audio_mult4 (p : String) (h : p.length % 4 = 0) :
    padFor "audioOutput" p = (p, none) := by
  simp [padFor, h]

theorem splitChunkAt_str (r : JsonObj) (t : String) (d : JsonObj) (s : String) (k j : Nat) :
    splitChunkAt r t d (.str s) k j =
      .ok (mkChunk r t d (.str (padFor t (pieceAt s k j)).1), (padFor t (pieceAt s k j)).2) := by
  have hslice : pySlice (.str s) (j * k) k = .ok (.str (pieceAt s k j)) := rfl
  by_cases ht : t == "audioOutput"
  · have hteq : t = "audioOutput" := by
      exact eq_of_beq ht
    subst hteq
    simp only [splitChunkAt, hslice, if_pos ht, padChunk_str]
  · have ht' : (t == "audioOutput") = false := by
      exact Bool.not_eq_true _ ▸ (by simpa using ht)
    simp only [splitChunkAt, hslice, ht', Bool.false_eq_true, if_false,
      padFor_other t _ ht']

/-!
## Case analysis of `split_large_event`

The following lemmas characterize `split_large_event` on each of its paths:
small events, events without an `event` key, events without a `content`
field, and the three outcomes of the splitting loop (zero, negative and
positive chunk budget).
-/

theorem split_small (r : JsonObj) (max_size : Int)
    (h : (eventSize r : Int) ≤ max_size) :
    split_large_event r max_size = .ok ([r], []) := by
  simp only [split_large_event, if_pos h]

theorem split_no_event (r : JsonObj) (max_size : Int)
    (h3 : ¬ ((eventSize r : Int) ≤ max_size))
    (h : getKey r "event" = none) :
    split_large_event r max_size = .ok ([r], []) := by
  simp only [split_large_event, if_neg h3, h]

theorem split_no_content (r : JsonObj) (t : String) (d : JsonObj) (fs0 : JsonObj)
    (max_size : Int)
    (h3 : ¬ ((eventSize r : Int) ≤ max_size))
    (h1 : getKey r "event" = some (.obj (.cons t (.obj d) fs0)))
    (h2 : hasKey d "content" = false) :
    split_large_event r max_size = .ok ([r], [Warning.noContentField]) := by
  simp only [split_large_event, if_neg h3, h1, getKey, beq_self_eq_true, if_true, h2]

theorem split_budget_zero (r : JsonObj) (t : String) (d : JsonObj) (fs0 : JsonObj)
    (s : String) (max_size : Int)
    (h1 : getKey r "event" = some (.obj (.cons t (.obj d) fs0)))
    (h2 : getKey d "content" = some (.str s))
    (h3 : ¬ ((eventSize r : Int) ≤ max_size))
    (hz : chunkBudget max_size (eventSize (mkChunk r t d (.str ""))) t = 0) :
    split_large_event r max_size = .error "ValueError: range() arg 3 must not be zero" := by
  simp only [split_large_event, h1, h2, if_neg h3, getKey, beq_self_eq_true, if_true,
    hasKey, Option.isSome_some, pyLen, hz, Bool.true_eq_false, if_false, if_pos]

theorem split_budget_neg (r : JsonObj) (t : String) (d : JsonObj) (fs0 : JsonObj)
    (s : String) (max_size : Int)
    (h1 : getKey r "event" = some (.obj (.cons t (.obj d) fs0)))
    (h2 : getKey d "content" = some (.str s))
    (h3 : ¬ ((eventSize r : Int) ≤ max_size))
    (hneg : chunkBudget max_size (eventSize (mkChunk r t d (.str ""))) t < 0) :
    split_large_event r max_size = .ok ([], []) := by
  have hne : ¬ (chunkBudget max_size (eventSize (mkChunk r t d (.str ""))) t = 0) := by
    omega
  simp only [split_large_event, h1, h2, if_neg h3, getKey, beq_self_eq_true, if_true,
    hasKey, Option.isSome_some, pyLen, if_neg hne, if_pos hneg, Bool.true_eq_false, if_false]

theorem split_spec_pos (r : JsonObj) (t : String) (d : JsonObj) (fs0 : JsonObj) (s : String)
    (max_size : Int) (K : Nat)
    (h1 : getKey r "event" = some (.obj (.cons t (.obj d) fs0)))
    (h2 : getKey d "content" = some (.str s))
    (h3 : ¬ ((eventSize r : Int) ≤ max_size))
    (hK : chunkBudget max_size (eventSize (mkChunk r t d (.str ""))) t = (K : Int))
    (hKpos : 0 < K) :
    split_large_event r max_size =
      .ok ((List.range ((s.length + K - 1) / K)).map
             (fun j => mkChunk r t d (.str (padFor t (pieceAt s K j)).1)),
           (List.range ((s.length + K - 1) / K)).filterMap
             (fun j => (padFor t (pieceAt s K j)).2)) := by
  have hne : ¬ ((K : Int) = 0) := by omega
  have hnlt : ¬ ((K : Int) < 0) := by omega
  have hmap := mapM_ok (List.range ((s.length + K - 1) / K))
    (splitChunkAt r t d (.str s) K)
    (fun j => (mkChunk r t d (.str (padFor t (pieceAt s K j)).1), (padFor t (pieceAt s K j)).2))
    (fun j _ => splitChunkAt_str r t d s K j)
  simp only [split_large_event, h1, h2, if_neg h3, getKey, beq_self_eq_true, if_true,
    hasKey, Option.isSome_some, pyLen, hK, if_neg hne, if_neg hnlt, Int.toNat_natCast,
    Bool.true_eq_false, if_false, hmap]
  simp [List.map_map, List.filterMap_map, Function.comp_def]

theorem chunkContent_mkChunk (r : JsonObj) (t : String) (d : JsonObj) (p : String) :
    chunkContent (mkChunk r t d (.str p)) = p := by
  simp [chunkContent, mkChunk, getKey_setKey_self]

theorem string_append_mk (a : String) (x : List Char) :
    a ++ String.mk x = String.mk (a.data ++ x) := rfl

theorem join_map_mk (l : List (List Char)) :
    String.join (l.map String.mk) = String.mk l.flatten := by
  induction l with
  | nil => rfl
  | cons x xs ih =>
    show String.join (String.mk x :: xs.map String.mk) = _
    have h : ∀ (acc : String) (ll : List String),
        List.foldl (fun r s => r ++ s) acc ll = acc ++ String.join ll := by
      intro acc ll
      induction ll generalizing acc with
      | nil =>
        show acc = acc ++ ""
        cases acc with
        | mk l =>
          show String.mk l = String.mk (l ++ [])
          rw [List.append_nil]
      | cons y ys ihy =>
        show List.foldl _ (acc ++ y) ys = _
        rw [ihy (acc ++ y)]
        show _ = acc ++ List.foldl (fun r s => r ++ s) ("" ++ y) ys
        rw [ihy ("" ++ y)]
        have : ("" ++ y) = y := by cases y; rfl
        rw [this, String.append_assoc]
    show List.foldl (fun r s => r ++ s) ("" ++ String.mk x) (xs.map String.mk) = _
    rw [h ("" ++ String.mk x), ih]
    have h0 : ("" ++ String.mk x) = String.mk x := by rfl
    rw [h0, string_append_mk]
    rfl

theorem escLen_of_ascii (p : String) (h : ∀ c ∈ p.data, utf8Len (pyEscapeChar c) = 1) :
    escLen p = p.length := by
  show (p.data.map (fun c => utf8Len (pyEscapeChar c))).sum = p.length
  have : ∀ l : List Char, (∀ c ∈ l, utf8Len (pyEscapeChar c) = 1) →
      (l.map (fun c => utf8Len (pyEscapeChar c))).sum = l.length := by
    intro l hl
    induction l with
    | nil => rfl
    | cons c cs ih =>
      simp only [List.map_cons, List.sum_cons, List.length_cons,
        hl c (by simp)]
      rw [ih (fun a ha => hl a (by simp [ha]))]
      omega
  exact this p.data h

theorem pieceAt_mult4 (s : String) (K j : Nat) (h4K : 4 ∣ K) (h4s : s.length % 4 = 0) :
    (pieceAt s K j).length % 4 = 0 := by
  rw [pieceAt_length]
  have hjk : 4 ∣ j * K := Dvd.dvd.mul_left h4K j
  rw [Nat.min_def]
  split <;> omega

theorem string_length_pos (s : String) (h : s ≠ "") : 0 < s.length := by
  by_contra hc
  apply h
  have hl : s.length = 0 := by omega
  have : s.data.length = 0 := hl
  have hd : s.data = [] := List.length_eq_zero.mp this
  show s = ""
  cases s with
  | mk data => simp at hd; rw [hd]

/-!
## Claims about `split_large_event`
-/

/-- C3: for every event whose serialized (UTF-8 encoded JSON) size is at most
`maxSize`, `split_large_event` returns exactly a one-element sequence whose
single element is identical to the input event (server.py lines 432-437). -/
theorem c3_small_event_unchanged (r : JsonObj) (max_size : Int)
    (h : (eventSize r : Int) ≤ max_size) :
    split_large_event r max_size = .ok ([r], []) :=
  split_small r max_size h

theorem c3_small_event_unchanged_witness :
    ((eventSize (contentEvent "textOutput" "hi") : Int) ≤ 16000) ∧
    split_large_event (contentEvent "textOutput" "hi") 16000 =
      .ok ([contentEvent "textOutput" "hi"], []) :=
  ⟨by decide, c3_small_event_unchanged _ _ (by decide)⟩

/-- C5: an event whose serialized size exceeds `maxSize` and whose event
payload has no `content` field is returned unchanged as a one-element
sequence, together with the warning signal logged at server.py line 448. -/
theorem c5_no_content_unsplit_warns (r : JsonObj) (t : String)
    (d fs0 : JsonObj) (max_size : Int)
    (hbig : ¬ ((eventSize r : Int) ≤ max_size))
    (hev : getKey r "event" = some (.obj (.cons t (.obj d) fs0)))
    (hnc : hasKey d "content" = false) :
    split_large_event r max_size = .ok ([r], [Warning.noContentField]) :=
  split_no_content r t d fs0 max_size hbig hev hnc

theorem c5_no_content_unsplit_warns_witness :
    (¬ ((eventSize (JsonObj.cons "event" (.obj (.cons "usageEvent"
        (.obj (.cons "x" (.str "0123456789") .nil)) .nil)) .nil) : Int) ≤ 10)) ∧
    getKey (JsonObj.cons "event" (.obj (.cons "usageEvent"
        (.obj (.cons "x" (.str "0123456789") .nil)) .nil)) .nil) "event" =
      some (.obj (.cons "usageEvent" (.obj (.cons "x" (.str "0123456789") .nil)) .nil)) ∧
    hasKey (JsonObj.cons "x" (.str "0123456789") .nil) "content" = false ∧
    split_large_event (JsonObj.cons "event" (.obj (.cons "usageEvent"
        (.obj (.cons "x" (.str "0123456789") .nil)) .nil)) .nil) 10 =
      .ok ([JsonObj.cons "event" (.obj (.cons "usageEvent"
        (.obj (.cons "x" (.str "0123456789") .nil)) .nil)) .nil], [Warning.noContentField]) :=
  ⟨by decide, rfl, rfl,
    c5_no_content_unsplit_warns _ "usageEvent" _ _ 10 (by decide) rfl rfl⟩

set_option maxRecDepth 1000000 in
/-- C1, counterexample: for the oversized `audioOutput` event whose base64
content has length 109 (not a multiple of 4) and `maxSize = 150`, the chunk
budget is 7, aligned down to 4, and the final chunk gets `===` padding
(server.py lines 483-488), so concatenating the `content` fields of the
returned chunks yields the original content extended by `===` — not the
original content.  This refutes the claim as stated, which quantifies over
every oversized `audioOutput` event. -/
theorem c1_counterexample :
    (split_large_event (contentEvent "audioOutput" (String.mk (List.replicate 109 'A'))) 150).toOption.map
        (fun pr => String.join (pr.1.map chunkContent)) =
      some (String.mk (List.replicate 109 'A') ++ "===") ∧
    String.mk (List.replicate 109 'A') ++ "===" ≠ String.mk (List.replicate 109 'A') :=
  ⟨rfl, by decide⟩

/-- C1 (amended): for every `audioOutput` event whose serialized size exceeds
`maxSize`, whose content is a string of length a multiple of 4 (as base64
always is), and whose aligned chunk budget is positive, `split_large_event`
returns chunks (with no warnings) whose `content` fields concatenate, in
order, to the original content exactly, and every chunk's content length is
a multiple of 4. -/
theorem c1_audio_chunks_reassemble (r : JsonObj) (d fs0 : JsonObj) (s : String)
    (max_size : Int) (K : Nat)
    (h1 : getKey r "event" = some (.obj (.cons "audioOutput" (.obj d) fs0)))
    (h2 : getKey d "content" = some (.str s))
    (h3 : ¬ ((eventSize r : Int) ≤ max_size))
    (hK : chunkBudget max_size (eventSize (mkChunk r "audioOutput" d (.str "")))
        "audioOutput" = (K : Int))
    (hKpos : 0 < K)
    (hlen : s.length % 4 = 0) :
    ∃ l, split_large_event r max_size = .ok (l, []) ∧
      String.join (l.map chunkContent) = s ∧
      ∀ e ∈ l, (chunkContent e).length % 4 = 0 := by
  have h4K : 4 ∣ K := by
    have hb : (Int.fdiv (max_size - (eventSize (mkChunk r "audioOutput" d (.str "")) : Int) - 100) 4) * 4
        = (K : Int) := by
      simpa [chunkBudget] using hK
    have he : Int.fdiv (max_size - (eventSize (mkChunk r "audioOutput" d (.str "")) : Int) - 100) 4
        = (max_size - (eventSize (mkChunk r "audioOutput" d (.str "")) : Int) - 100) / 4 :=
      Int.fdiv_eq_ediv _ (by norm_num)
    rw [he] at hb
    omega
  have hchar := split_spec_pos r "audioOutput" d fs0 s max_size K h1 h2 h3 hK hKpos
  have hpad : ∀ j, padFor "audioOutput" (pieceAt s K j) = (pieceAt s K j, none) :=
    fun j => padFor_audio_mult4 _ (pieceAt_mult4 s K j h4K hlen)
  refine ⟨(List.range ((s.length + K - 1) / K)).map
      (fun j => mkChunk r "audioOutput" d (.str (pieceAt s K j))), ?_, ?_, ?_⟩
  · rw [hchar]
    simp [hpad]
  · rw [List.map_map]
    have hcomp : (chunkContent ∘ fun j => mkChunk r "audioOutput" d (.str (pieceAt s K j)))
        = fun j => pieceAt s K j := by
      funext j
      simp [Function.comp_def, chunkContent_mkChunk]
    rw [hcomp]
    have hmk : (fun j => pieceAt s K j)
        = (String.mk ∘ fun j => (s.data.drop (j * K)).take K) := rfl
    rw [hmk, ← List.map_map, join_map_mk, flatten_range_take]
    have hle : s.data.length ≤ ((s.length + K - 1) / K) * K := ceil_div_mul_ge s.length K hKpos
    rw [List.take_of_length_le hle]
  · intro e he
    obtain ⟨j, _, rfl⟩ := List.mem_map.mp he
    rw [chunkContent_mkChunk]
    exact pieceAt_mult4 s K j h4K hlen

set_option maxRecDepth 1000000 in
theorem c1_audio_chunks_reassemble_witness :
    getKey (contentEvent "audioOutput" (String.mk (List.replicate 112 'A'))) "event" =
      some (.obj (.cons "audioOutput"
        (.obj (.cons "content" (.str (String.mk (List.replicate 112 'A'))) .nil)) .nil)) ∧
    (¬ ((eventSize (contentEvent "audioOutput" (String.mk (List.replicate 112 'A'))) : Int) ≤ 150)) ∧
    chunkBudget 150 (eventSize (mkChunk (contentEvent "audioOutput" (String.mk (List.replicate 112 'A')))
        "audioOutput" (.cons "content" (.str (String.mk (List.replicate 112 'A'))) .nil) (.str "")))
        "audioOutput" = ((4 : Nat) : Int) ∧
    (∃ l, split_large_event (contentEvent "audioOutput" (String.mk (List.replicate 112 'A'))) 150 =
        .ok (l, []) ∧
      String.join (l.map chunkContent) = String.mk (List.replicate 112 'A') ∧
      ∀ e ∈ l, (chunkContent e).length % 4 = 0) :=
  ⟨rfl, by decide, by decide,
    c1_audio_chunks_reassemble _ _ _ _ 150 4 rfl rfl (by decide) (by decide) (by decide) (by decide)⟩

set_option maxRecDepth 1000000 in
/-- C4, counterexample: JSON string escaping can double the serialized size
of a content character (here `"` serializes as `\"`), while the chunk budget
`maxSize - overhead - 100` counts characters of the raw content.  For the
oversized `textOutput` event whose content is 102 quote characters and
`maxSize = 243`, the first returned chunk serializes to 244 bytes —
exceeding `maxSize`.  This refutes the claim as stated, which quantifies
over every oversized event with a `content` field. -/
theorem c4_counterexample :
    (split_large_event (contentEvent "textOutput" (String.mk (List.replicate 102 '"'))) 243).toOption.map
        (fun pr => pr.1.map (fun e => eventSize e)) = some [244, 44] ∧
    ¬ ((244 : Int) ≤ 243) :=
  ⟨rfl, by decide⟩

/-- C4 (amended): for every oversized event that `split_large_event`
actually splits, *whose content characters each serialize to a single byte
under JSON string escaping* (as every base64 character does), each returned
chunk's serialized UTF-8 JSON size is at most `maxSize`; the per-chunk
content budget is `maxSize` minus the serialized size of the
template copy with `content` cleared minus the fixed margin of 100
(server.py lines 453-461). -/
theorem c4_chunk_sizes_bounded (r : JsonObj) (t : String) (d fs0 : JsonObj) (s : String)
    (max_size : Int)
    (h1 : getKey r "event" = some (.obj (.cons t (.obj d) fs0)))
    (h2 : getKey d "content" = some (.str s))
    (h3 : ¬ ((eventSize r : Int) ≤ max_size))
    (hesc : ∀ c ∈ s.data, utf8Len (pyEscapeChar c) = 1) :
    ∀ l w, split_large_event r max_size = .ok (l, w) →
      ∀ e ∈ l, (eventSize e : Int) ≤ max_size := by
  intro l w hok e he
  set O := eventSize (mkChunk r t d (.str "")) with hO
  set B := chunkBudget max_size O t with hB
  have hBle : B ≤ max_size - (O : Int) - 100 := by
    rw [hB, chunkBudget]
    by_cases ht : t == "audioOutput"
    · simp only [ht, if_true]
      have he2 : Int.fdiv (max_size - (O : Int) - 100) 4
          = (max_size - (O : Int) - 100) / 4 := Int.fdiv_eq_ediv _ (by norm_num)
      rw [he2]
      omega
    · have ht' : (t == "audioOutput") = false := by simpa using ht
      simp [ht']
  rcases lt_trichotomy B 0 with hneg | hzero | hpos
  · rw [split_budget_neg r t d fs0 s max_size h1 h2 h3 hneg] at hok
    simp only [Except.ok.injEq, Prod.mk.injEq] at hok
    obtain ⟨hl, -⟩ := hok
    subst hl
    simp at he
  · rw [split_budget_zero r t d fs0 s max_size h1 h2 h3 hzero] at hok
    simp at hok
  · have hKpos : 0 < B.toNat := by omega
    have hchar := split_spec_pos r t d fs0 s max_size B.toNat h1 h2 h3
      (by rw [← hO, ← hB]; omega) hKpos
    rw [hchar] at hok
    simp only [Except.ok.injEq, Prod.mk.injEq] at hok
    obtain ⟨hl, -⟩ := hok
    subst hl
    obtain ⟨j, hj, rfl⟩ := List.mem_map.mp he
    have hrk : hasKey r "event" = true := by simp [hasKey, h1]
    have hdk : hasKey d "content" = true := by simp [hasKey, h2]
    set p := pieceAt s B.toNat j with hp
    have hpdata : p.data = (s.data.drop (j * B.toNat)).take B.toNat := rfl
    have hpchars : ∀ c ∈ p.data, utf8Len (pyEscapeChar c) = 1 := by
      intro c hc
      rw [hpdata] at hc
      exact hesc c (List.drop_subset _ _ (List.take_subset _ _ hc))
    have hplen : p.length ≤ B.toNat := by
      rw [hp, pieceAt_length]
      omega
    have heq : utf8Len (pyEscapeChar '=') = 1 := by decide
    have hpad : (∀ c ∈ ((padFor t p).1).data, utf8Len (pyEscapeChar c) = 1) ∧
        ((padFor t p).1).length ≤ B.toNat := by
      by_cases ht : t == "audioOutput"
      · have hteq : t = "audioOutput" := eq_of_beq ht
        subst hteq
        have h4K : 4 ∣ B.toNat := by
          have hb2 : (Int.fdiv (max_size - (O : Int) - 100) 4) * 4 = B := by
            rw [hB]
            simp [chunkBudget]
          have he2 : Int.fdiv (max_size - (O : Int) - 100) 4
              = (max_size - (O : Int) - 100) / 4 := Int.fdiv_eq_ediv _ (by norm_num)
          rw [he2] at hb2
          omega
        by_cases hr : p.length % 4 = 0
        · rw [padFor_audio_mult4 _ hr]
          exact ⟨hpchars, hplen⟩
        · have hpf : padFor "audioOutput" p =
              (p ++ String.mk (List.replicate (4 - p.length % 4) '='),
               some Warning.paddingAdded) := by
            simp [padFor, hr]
          rw [hpf]
          constructor
          · intro c hc
            rw [string_append_mk] at hc
            have hc2 : c ∈ p.data ++ List.replicate (4 - p.length % 4) '=' := hc
            rcases List.mem_append.mp hc2 with hcl | hcr
            · exact hpchars c hcl
            · rw [List.eq_of_mem_replicate hcr]
              exact heq
          · rw [string_append_mk]
            show (p.data ++ List.replicate (4 - p.length % 4) '=').length ≤ B.toNat
            rw [List.length_append, List.length_replicate]
            have hpl : p.data.length = p.length := rfl
            omega
      · have ht' : (t == "audioOutput") = false := by simpa using ht
        rw [padFor_other t p ht']
        exact ⟨hpchars, hplen⟩
    have hsz := eventSize_mkChunk r t d ((padFor t p).1) hrk hdk
    have hel : escLen ((padFor t p).1) = ((padFor t p).1).length :=
      escLen_of_ascii _ hpad.1
    rw [← hO] at hsz
    omega

set_option maxRecDepth 1000000 in
theorem c4_chunk_sizes_bounded_witness :
    getKey (contentEvent "textOutput" (String.mk (List.replicate 120 'A'))) "event" =
      some (.obj (.cons "textOutput"
        (.obj (.cons "content" (.str (String.mk (List.replicate 120 'A'))) .nil)) .nil)) ∧
    (¬ ((eventSize (contentEvent "textOutput" (String.mk (List.replicate 120 'A'))) : Int) ≤ 150)) ∧
    (∀ c ∈ (String.mk (List.replicate 120 'A')).data, utf8Len (pyEscapeChar c) = 1) ∧
    (∀ l w, split_large_event (contentEvent "textOutput" (String.mk (List.replicate 120 'A'))) 150 =
        .ok (l, w) → ∀ e ∈ l, (eventSize e : Int) ≤ 150) :=
  ⟨rfl, by decide, by decide,
    c4_chunk_sizes_bounded _ _ _ _ _ 150 rfl rfl (by decide) (by decide)⟩

set_option maxRecDepth 1000000 in
/-- C10, counterexample: for the oversized `textOutput` event whose
serialized overhead plus the fixed margin of 100 exceeds `maxSize = 50`
(a positive maximum size), the chunk budget is negative, Python's
`range(0, len(content), negative)` is empty, and `split_large_event`
returns the empty list — not a non-empty one.  (When the budget is exactly
zero the function does not even return: `range(0, n, 0)` raises
`ValueError`, see `split_budget_zero`.)  This refutes the claim as
stated, which quantifies over every event and positive `maxSize`. -/
theorem c10_counterexample :
    split_large_event (contentEvent "textOutput" (String.mk (List.replicate 20 'A'))) 50 =
      .ok ([], []) ∧ (0 : Int) < 50 :=
  ⟨rfl, by decide⟩

/-- C10 (amended): `split_large_event` terminates without an exception and
returns a non-empty list of events, provided that when the event is
oversized its envelope is an object whose first kind maps to an object
payload, and when that payload carries a (string) `content` field the
derived chunk budget (after `audioOutput` alignment) is positive and the
content is non-empty. -/
theorem c10_split_total_nonempty (r : JsonObj) (max_size : Int)
    (h : (eventSize r : Int) ≤ max_size ∨
         getKey r "event" = none ∨
         (∃ t d fs0, getKey r "event" = some (.obj (.cons t (.obj d) fs0)) ∧
           (hasKey d "content" = false ∨
            (∃ (s : String) (K : Nat), getKey d "content" = some (.str s) ∧
              chunkBudget max_size (eventSize (mkChunk r t d (.str ""))) t = (K : Int) ∧
              0 < K ∧ s ≠ "")))) :
    ∃ l w, split_large_event r max_size = .ok (l, w) ∧ l ≠ [] := by
  by_cases hsmall : (eventSize r : Int) ≤ max_size
  · exact ⟨[r], [], split_small r max_size hsmall, by simp⟩
  rcases h with hs | hne | ⟨t, d, fs0, hev, hrest⟩
  · exact absurd hs hsmall
  · exact ⟨[r], [], split_no_event r max_size hsmall hne, by simp⟩
  rcases hrest with hnc | ⟨s, K, hc, hK, hKpos, hsne⟩
  · exact ⟨[r], [.noContentField], split_no_content r t d fs0 max_size hsmall hev hnc, by simp⟩
  · have hchar := split_spec_pos r t d fs0 s max_size K hev hc hsmall hK hKpos
    refine ⟨_, _, hchar, ?_⟩
    have hm : 0 < (s.length + K - 1) / K := ceil_div_pos _ _ hKpos (string_length_pos s hsne)
    intro hemp
    rw [List.map_eq_nil_iff, List.range_eq_nil] at hemp
    omega

theorem c10_split_total_nonempty_witness :
    ((eventSize (contentEvent "textOutput" "hi") : Int) ≤ 16000 ∨
      getKey (contentEvent "textOutput" "hi") "event" = none ∨
      (∃ t d fs0, getKey (contentEvent "textOutput" "hi") "event" =
          some (.obj (.cons t (.obj d) fs0)) ∧
        (hasKey d "content" = false ∨
          (∃ (s : String) (K : Nat), getKey d "content" = some (.str s) ∧
            chunkBudget 16000 (eventSize (mkChunk (contentEvent "textOutput" "hi") t d (.str ""))) t
              = (K : Int) ∧ 0 < K ∧ s ≠ "")))) ∧
    (∃ l w, split_large_event (contentEvent "textOutput" "hi") 16000 = .ok (l, w) ∧ l ≠ []) :=
  ⟨Or.inl (by decide), c10_split_total_nonempty _ 16000 (Or.inl (by decide))⟩

/-!
## Claims about the connection handler and the credential refresh loop
-/

/-- C6: when a `sessionStart` event arrives while a prior session exists on
the connection, the handler closes the prior bridge — and, if the prior
forwarding task is still running, cancels and awaits it — strictly before
creating the new bridge (server.py lines 300-318).  At most one session is
attached at any time by construction: `ConnState.stream_manager` is a single
`Option` slot. -/
theorem c6_teardown_before_new_bridge (st : ConnState) (m : SessionMgr) (data : JsonObj)
    (p0 : Json) (fs0 : JsonObj) (b : Bool)
    (hm : st.stream_manager = some m)
    (hd : getKey data "event" = some (.obj (.cons "sessionStart" p0 fs0))) :
    ∃ pre post, (handleMessage (.parsed data) b st).2 = pre ++ Op.createBridge st.next_id :: post ∧
      Op.closeBridge m.mgr_id ∈ pre ∧
      (st.forward_task = some .running →
        Op.cancelForwardTask ∈ pre ∧ Op.awaitForwardTask ∈ pre) := by
  have hdisp : handleMessage (.parsed data) b st = handleSessionStart b data st := by
    simp [handleMessage, hd]
  rw [hdisp]
  rcases st with ⟨sm, ft, nid⟩
  simp only at hm
  subst hm
  rcases ft with _ | t
  · cases b
    · exact ⟨[Op.closeBridge m.mgr_id],
        [Op.initStream nid false, Op.sendClientError "ConnectionError"],
        rfl, by simp, by simp⟩
    · exact ⟨[Op.closeBridge m.mgr_id],
        [Op.initStream nid true, Op.spawnForwardTask, Op.sendRawEvent nid data],
        rfl, by simp, by simp⟩
  · cases t
    · cases b
      · exact ⟨[Op.closeBridge m.mgr_id, Op.cancelForwardTask, Op.awaitForwardTask],
          [Op.initStream nid false, Op.sendClientError "ConnectionError"],
          rfl, by simp, by simp⟩
      · exact ⟨[Op.closeBridge m.mgr_id, Op.cancelForwardTask, Op.awaitForwardTask],
          [Op.initStream nid true, Op.spawnForwardTask, Op.sendRawEvent nid data],
          rfl, by simp, by simp⟩
    · cases b
      · exact ⟨[Op.closeBridge m.mgr_id],
          [Op.initStream nid false, Op.sendClientError "ConnectionError"],
          rfl, by simp, by simp⟩
      · exact ⟨[Op.closeBridge m.mgr_id],
          [Op.initStream nid true, Op.spawnForwardTask, Op.sendRawEvent nid data],
          rfl, by simp, by simp⟩

theorem c6_teardown_before_new_bridge_witness :
    (ConnState.mk (some ⟨7, true, none, none⟩) (some .running) 8).stream_manager =
      some ⟨7, true, none, none⟩ ∧
    getKey (JsonObj.cons "event" (.obj (.cons "sessionStart" (.obj .nil) .nil)) .nil) "event" =
      some (.obj (.cons "sessionStart" (.obj .nil) .nil)) ∧
    (∃ pre post,
      (handleMessage (.parsed (JsonObj.cons "event" (.obj (.cons "sessionStart" (.obj .nil) .nil)) .nil))
          true (ConnState.mk (some ⟨7, true, none, none⟩) (some .running) 8)).2 =
        pre ++ Op.createBridge
          (ConnState.mk (some ⟨7, true, none, none⟩) (some .running) 8).next_id :: post ∧
      Op.closeBridge 7 ∈ pre ∧
      ((ConnState.mk (some ⟨7, true, none, none⟩) (some .running) 8).forward_task = some .running →
        Op.cancelForwardTask ∈ pre ∧ Op.awaitForwardTask ∈ pre)) :=
  ⟨rfl, rfl, c6_teardown_before_new_bridge _ ⟨7, true, none, none⟩ _ _ _ true rfl rfl⟩

/-- C9: a `sessionEnd` event arriving while no session exists on the
connection (fresh connection: no stream manager, no forwarding task) leaves
the state unchanged and performs no operation at all — no bridge close, no
send, no error; and the connection remains usable: a later `sessionStart`
with a successful `initialize_stream` attaches an active session
(server.py lines 337-352, 300-334). -/
theorem c9_session_end_no_session_noop (st : ConnState) (dataEnd dataStart : JsonObj)
    (p0 : Json) (fs0 : JsonObj) (p1 : Json) (fs1 : JsonObj) (b : Bool)
    (h1 : st.stream_manager = none)
    (h2 : st.forward_task = none)
    (hd : getKey dataEnd "event" = some (.obj (.cons "sessionEnd" p0 fs0)))
    (hd2 : getKey dataStart "event" = some (.obj (.cons "sessionStart" p1 fs1))) :
    handleMessage (.parsed dataEnd) b st = (st, []) ∧
    (handleMessage (.parsed dataStart) true st).1.stream_manager =
      some ⟨st.next_id, true, none, none⟩ := by
  rcases st with ⟨sm, ft, nid⟩
  simp only at h1 h2
  subst h1
  subst h2
  constructor
  · simp [handleMessage, hd, handleSessionEnd]
  · simp [handleMessage, hd2, handleSessionStart]

theorem c9_session_end_no_session_noop_witness :
    freshConn.stream_manager = none ∧
    freshConn.forward_task = none ∧
    getKey (JsonObj.cons "event" (.obj (.cons "sessionEnd" (.obj .nil) .nil)) .nil) "event" =
      some (.obj (.cons "sessionEnd" (.obj .nil) .nil)) ∧
    handleMessage (.parsed (JsonObj.cons "event" (.obj (.cons "sessionEnd" (.obj .nil) .nil)) .nil))
        true freshConn = (freshConn, []) ∧
    (handleMessage (.parsed (JsonObj.cons "event" (.obj (.cons "sessionStart" (.obj .nil) .nil)) .nil))
        true freshConn).1.stream_manager = some ⟨freshConn.next_id, true, none, none⟩ :=
  ⟨rfl, rfl, rfl,
    (c9_session_end_no_session_noop freshConn
      (JsonObj.cons "event" (.obj (.cons "sessionEnd" (.obj .nil) .nil)) .nil)
      (JsonObj.cons "event" (.obj (.cons "sessionStart" (.obj .nil) .nil)) .nil)
      (.obj .nil) .nil (.obj .nil) .nil true rfl rfl rfl rfl).1,
    (c9_session_end_no_session_noop freshConn
      (JsonObj.cons "event" (.obj (.cons "sessionEnd" (.obj .nil) .nil)) .nil)
      (JsonObj.cons "event" (.obj (.cons "sessionStart" (.obj .nil) .nil)) .nil)
      (.obj .nil) .nil (.obj .nil) .nil true rfl rfl rfl rfl).2⟩

/-- C2, counterexample: when `initialize_stream` fails while handling a
`sessionStart` on a fresh connection, a session object *does* remain
attached to the connection — `stream_manager` was assigned at server.py
line 315, before the failing `await stream_manager.initialize_stream()` at
line 321, and the exception handler at line 382 does not clear it.  The
attached manager is inactive (`is_active = false`), but `stream_manager`
is not `None`, refuting the claim's "no Session remains attached". -/
theorem c2_counterexample :
    (handleMessage (.parsed (JsonObj.cons "event" (.obj (.cons "sessionStart" (.obj .nil) .nil)) .nil))
        false freshConn).1.stream_manager = some ⟨0, false, none, none⟩ ∧
    some (SessionMgr.mk 0 false none none) ≠ none :=
  ⟨rfl, by simp⟩

/-- C2 (amended): if `initialize_stream` fails while handling `sessionStart`,
session creation is aborted (no forwarding task is spawned and nothing is
sent to the backend), the failure is reported to the client as an error
event, the receive loop continues with the connection open — but the freshly
created session object remains referenced by `stream_manager`, merely never
active: `is_active` stays `false` (it becomes true only when
`initialize_stream` succeeds), so subsequent data events are dropped with a
warning rather than forwarded. -/
theorem c2_failed_init_reports_error_keeps_inactive (st : ConnState) (data : JsonObj)
    (p0 : Json) (fs0 : JsonObj)
    (hd : getKey data "event" = some (.obj (.cons "sessionStart" p0 fs0))) :
    (handleMessage (.parsed data) false st).1.stream_manager =
      some ⟨st.next_id, false, none, none⟩ ∧
    Op.sendClientError "ConnectionError" ∈ (handleMessage (.parsed data) false st).2 ∧
    Op.spawnForwardTask ∉ (handleMessage (.parsed data) false st).2 ∧
    (∀ (i : Nat) (e : JsonObj), Op.sendRawEvent i e ∉ (handleMessage (.parsed data) false st).2) ∧
    (∀ (data2 : JsonObj) (q : Json) (fs2 : JsonObj) (b : Bool),
      getKey data2 "event" = some (.obj (.cons "audioInput" q fs2)) →
      handleMessage (.parsed data2) b (handleMessage (.parsed data) false st).1 =
        ((handleMessage (.parsed data) false st).1, [Op.logWarning])) := by
  have hdisp : handleMessage (.parsed data) false st = handleSessionStart false data st := by
    simp [handleMessage, hd]
  rw [hdisp]
  rcases st with ⟨sm, ft, nid⟩
  refine ⟨?_, ?_, ?_, ?_, ?_⟩
  · rcases sm with _ | m <;> rcases ft with _ | (_ | _) <;> simp [handleSessionStart]
  · rcases sm with _ | m <;> rcases ft with _ | (_ | _) <;> simp [handleSessionStart]
  · rcases sm with _ | m <;> rcases ft with _ | (_ | _) <;> simp [handleSessionStart]
  · intro i e
    rcases sm with _ | m <;> rcases ft with _ | (_ | _) <;> simp [handleSessionStart]
  · intro data2 q fs2 b hd2
    rcases sm with _ | m <;> rcases ft with _ | (_ | _) <;>
      simp [handleSessionStart, handleMessage, hd2]

theorem c2_failed_init_reports_error_keeps_inactive_witness :
    getKey (JsonObj.cons "event" (.obj (.cons "sessionStart" (.obj .nil) .nil)) .nil) "event" =
      some (.obj (.cons "sessionStart" (.obj .nil) .nil)) ∧
    ((handleMessage (.parsed (JsonObj.cons "event" (.obj (.cons "sessionStart" (.obj .nil) .nil)) .nil))
        false freshConn).1.stream_manager = some ⟨freshConn.next_id, false, none, none⟩ ∧
      Op.sendClientError "ConnectionError" ∈
        (handleMessage (.parsed (JsonObj.cons "event" (.obj (.cons "sessionStart" (.obj .nil) .nil)) .nil))
          false freshConn).2) :=
  ⟨rfl,
    (c2_failed_init_reports_error_keeps_inactive freshConn
      (JsonObj.cons "event" (.obj (.cons "sessionStart" (.obj .nil) .nil)) .nil)
      (.obj .nil) .nil rfl).1,
    (c2_failed_init_reports_error_keeps_inactive freshConn
      (JsonObj.cons "event" (.obj (.cons "sessionStart" (.obj .nil) .nil)) .nil)
      (.obj .nil) .nil rfl).2.1⟩

theorem refreshRun_failures : ∀ (rs : List FetchResult) (env : EnvCreds),
    (∀ r ∈ rs, ∃ e, r = .failure e) → refreshRun rs env = env
  | [], _, _ => rfl
  | r :: rest, env, h => by
    obtain ⟨e, rfl⟩ := h r (by simp)
    show refreshRun rest env = env
    exact refreshRun_failures rest env (fun r' hr' => h r' (by simp [hr']))

/-- C7: one iteration of the credential refresh loop sleeps
`min(max(secondsUntilExpiry - 300, 60), 3600)` — that is,
`clamp(secondsUntilExpiry - 300, 60, 3600)` — after a successful fetch with
a parseable expiration, replacing all three cached credentials; after a
failed fetch it sleeps the fixed 300-second backoff and leaves the cached
credentials untouched, and any run of consecutive failures leaves the cache
exactly as it was (server.py lines 127-169). -/
theorem c7_refresh_schedule (c : ImdsCreds) (t : Int) (env : EnvCreds)
    (rs : List FetchResult)
    (hexp : c.secondsUntilExpiry = some t)
    (hfail : ∀ r ∈ rs, ∃ e, r = .failure e) :
    refreshStep (.success c) env =
      (⟨some c.accessKeyId, some c.secretAccessKey, some c.token⟩,
       min (max (t - 300) 60) 3600) ∧
    (∀ (e : String) (env' : EnvCreds), refreshStep (.failure e) env' = (env', 300)) ∧
    refreshRun rs env = env := by
  refine ⟨?_, fun e env' => rfl, refreshRun_failures rs env hfail⟩
  simp [refreshStep, hexp]

theorem c7_refresh_schedule_witness :
    (ImdsCreds.mk "AKID" "SECRET" "TOKEN" (some 5000)).secondsUntilExpiry = some 5000 ∧
    (∀ r ∈ [FetchResult.failure "http 500"], ∃ e, r = .failure e) ∧
    (refreshStep (.success (ImdsCreds.mk "AKID" "SECRET" "TOKEN" (some 5000)))
        (EnvCreds.mk none none none) =
      (⟨some "AKID", some "SECRET", some "TOKEN"⟩, min (max (5000 - 300) 60) 3600) ∧
    (∀ (e : String) (env' : EnvCreds), refreshStep (.failure e) env' = (env', 300)) ∧
    refreshRun [FetchResult.failure "http 500"] (EnvCreds.mk none none none) =
      EnvCreds.mk none none none) :=
  ⟨rfl, by intro r hr; simp at hr; exact ⟨"http 500", hr⟩,
    c7_refresh_schedule _ 5000 _ _ rfl (by intro r hr; simp at hr; exact ⟨"http 500", hr⟩)⟩
